import Mathlib

/-!
Verification of the Oracle table-sync helper module.

Shallow embedding of `src/oracle_code/oracle_code.py` (module `oracle_code`).

The module is a helper layer over the `cx_Oracle` driver: schema
reconciliation (`format_data`), batched inserts (`append_data`), keyed delete
(`delete_data`), truncation (`truncate_data`) and a join-based merge/upsert
(`update_join`).

The embedding has two layers:

* a **trace layer**: each operation is a Lean function producing the list of
  observable calls it issues (prints, statement executions, commit/rollback)
  together with a terminal outcome (normal return, `sys.exit(code)`, or a
  raised exception).  Database execution is abstracted by failure oracles
  (`execFail`, `manyFail`) saying which statement executions raise;
* a **relational layer**: the SQL statements generated by `update_join` are
  given their relational meaning over tables modelled as lists of rows, and
  the merge procedure is the sequential composition of those meanings.

Values stored in tables are a type parameter `V`; a parameter
`isNull : V → Bool` models which values pandas `replace` maps to `None`
(the empty string and `np.nan` in the source).
-/

namespace OracleCode

/-- Line 15 of the source: `BATCH_SIZE = 20000`. -/
def BATCH_SIZE : Nat := 20000

/-- A pandas dataframe, as the module uses it: an ordered list of column
names and rows of values positionally aligned with the columns. -/
structure DataFrame (V : Type) where
  cols : List String
  rows : List (List V)
deriving Repr

/-- The SQL statements the module generates, kept structured so that the
components built by the Python string interpolation (column lists, join
conditions, set clauses) stay visible.  `toSql` renders the statement text. -/
inductive Stmt where
  /-- Lines 78-85: `CREATE TABLE temp AS (SELECT * FROM tbl WHERE 1=0)`. -/
  | createTempFrom (temp tbl : String)
  /-- Lines 86-90: `ALTER TABLE temp ADD CONSTRAINT temp_PK PRIMARY KEY (keys)`. -/
  | addPK (temp : String) (keys : List String)
  /-- Line 159: `SELECT * FROM tbl WHERE ROWNUM = 1` (schema probe). -/
  | selectRownum (tbl : String)
  /-- Line 185: `DELETE FROM tbl` (the module's "truncate"). -/
  | deleteAll (tbl : String)
  /-- Line 199: `INSERT INTO tbl VALUES (:values)` with positional binds. -/
  | insertValues (tbl : String) (values : String)
  /-- Lines 114-124: the updatable-join-view `UPDATE`. -/
  | updateJoin (selectCols joinConds setConds : List String) (tbl temp : String)
  /-- Lines 125-133: `DELETE FROM temp WHERE EXISTS (...)`. -/
  | deleteTemp (temp tbl : String) (joinConds : List String)
  /-- Lines 134-138: `INSERT INTO tbl SELECT * FROM temp`. -/
  | insertFromTemp (tbl temp : String)
  /-- Line 149: `DROP TABLE tbl`. -/
  | dropTable (tbl : String)
  /-- Line 220: `DELETE FROM tbl WHERE col = :1`. -/
  | deleteWhere (tbl col : String)
deriving DecidableEq, Repr

/-- Render a structured statement to its SQL text, following the f-strings of
the source (whitespace normalised to single spaces). -/
def Stmt.toSql : Stmt → String
  | .createTempFrom temp tbl =>
      s!"CREATE TABLE {temp} AS ( SELECT * FROM {tbl} WHERE 1=0 )"
  | .addPK temp keys =>
      let ks := String.intercalate ", " keys
      s!"ALTER TABLE {temp} ADD CONSTRAINT {temp}_PK PRIMARY KEY ({ks}) ENABLE"
  | .selectRownum tbl => s!"SELECT * FROM {tbl} WHERE ROWNUM = 1"
  | .deleteAll tbl => s!"DELETE FROM {tbl}"
  | .insertValues tbl values => s!"INSERT INTO {tbl} VALUES (:{values})"
  | .updateJoin selectCols joinConds setConds tbl temp =>
      let sel := String.intercalate ", " selectCols
      let jn := String.intercalate " AND " joinConds
      let st := String.intercalate ", " setConds
      s!"UPDATE ( SELECT {sel} FROM {tbl} INNER JOIN {temp} ON {jn} ) joined SET {st}"
  | .deleteTemp temp tbl joinConds =>
      let jn := String.intercalate " AND " joinConds
      s!"DELETE FROM {temp} WHERE EXISTS ( SELECT * FROM {tbl} WHERE {jn})"
  | .insertFromTemp tbl temp => s!"INSERT INTO {tbl} SELECT * FROM {temp}"
  | .dropTable tbl => s!"DROP TABLE {tbl}"
  | .deleteWhere tbl col => s!"DELETE FROM {tbl} WHERE {col} = :1"

/-- An observable call made by an operation: console output, a statement
execution (`cursor.execute`), a batched execution (`cursor.executemany`, with
the bound data), or a transaction call on the connection. -/
inductive Event (α : Type) where
  | print (s : String)
  | printRow (row : List α)
  | exec (s : Stmt)
  | execMany (s : Stmt) (data : List (List α))
  | commitTx
  | rollbackTx
deriving DecidableEq, Repr

/-- How an operation terminates: normal return, `sys.exit code`, or a raised
exception carried as a message. -/
inductive Outcome where
  | ok
  | exited (code : Nat)
  | raised (e : String)
deriving DecidableEq, Repr

/-- Line 163: `df.columns = [col.upper() for col in df.columns]`.  This
assignment mutates the caller's dataframe object in place; the later
`df = df.reindex(...)` and `df = df.replace(...)` only rebind the local
name.  This function is the state of the caller's dataframe after
`format_data` returns. -/
def format_data_effect {V : Type} (df : DataFrame V) : DataFrame V :=
  { cols := df.cols.map String.toUpper, rows := df.rows }

/-- Lines 172-174: `df.replace({'': None, np.nan: None})` — null-like values
(as classified by `isNull`) become `none`; a value absent altogether (`NaN`
from `reindex`) stays `none`. -/
def normalize {V : Type} (isNull : V → Bool) (o : Option V) : Option V :=
  o.bind fun v => if isNull v then none else some v

/-- Value of column `c` in a row positionally aligned with `cols` (the label
lookup pandas performs: first occurrence of the label). -/
def colVal {V : Type} (cols : List String) (row : List V) (c : String) : Option V :=
  (List.indexOf? c cols).bind fun i => row[i]?

/-- Lines 151-179, pure part of `format_data`: upper-case the dataframe's
column names, fail with an `IndexError` if a database column is missing from
the dataframe (the loop raises at the first missing column), otherwise
reindex every row to the database's column order `desc`, dropping dataframe
columns not present in `desc`, and normalise null-like values. -/
def format_data {V : Type} (df : DataFrame V) (desc : List String)
    (isNull : V → Bool) (table : String) :
    Except String (List (List (Option V))) :=
  let dfU := format_data_effect df
  match desc.find? (fun c => !(dfU.cols.contains c)) with
  | some c =>
      .error s!"IndexError: Column \"{c}\" from database table \"{table}\" not in dataframe"
  | none =>
      .ok (dfU.rows.map fun row => desc.map fun c => normalize isNull (colVal dfU.cols row c))

/-- Trace of `format_data`: the schema probe `SELECT * FROM table WHERE
ROWNUM = 1` is executed first (line 159); a driver failure there, or the
schema-mismatch `IndexError`, propagates to the caller. -/
def format_data_run {V : Type} (execFail : Stmt → Option String)
    (df : DataFrame V) (desc : List String) (isNull : V → Bool) (table : String) :
    List (Event (Option V)) × Except Outcome (List (List (Option V))) :=
  let stmt := Stmt.selectRownum table
  match execFail stmt with
  | some e => ([.exec stmt], .error (.raised e))
  | none =>
    match format_data df desc isNull table with
    | .error msg => ([.exec stmt], .error (.raised msg))
    | .ok recs => ([.exec stmt], .ok recs)

/-- Lines 181-188, `truncate_data`: a plain `DELETE FROM table` (a DDL
truncate would auto-commit), then a success print. -/
def truncate_data_run {α : Type} (execFail : Stmt → Option String) (table : String) :
    List (Event α) × Outcome :=
  let stmt := Stmt.deleteAll table
  match execFail stmt with
  | some e => ([.exec stmt], .raised e)
  | none =>
      ([.exec stmt, .print s!"Successfully deleted rows from table \"{table}\""], .ok)

/-- Lines 195-196: `l = [x + 1 for x in range(len(first))]` followed by
`', :'.join(map(str, l))` — the positional-bind placeholder list. -/
def placeholder_values (n : Nat) : String :=
  String.intercalate ", :" (((List.range n).map fun x => x + 1).map toString)

/-- Lines 233-247, `_print_data_error`: print the failed statement, the first
five and last five rows of the batch (`data[0:5]` and `data[-5:]`), and the
exception.  The subsequent `sys.exit(1)` is recorded by the caller's
outcome. -/
def print_data_error_events {α : Type} (stmt : Stmt) (data : List (List α))
    (e : String) : List (Event α) :=
  [.print "Execution Statement Failed:", .print stmt.toSql, .print "data[0:5]:"]
    ++ (data.take 5).map Event.printRow
    ++ [.print "data[-5:]:"]
    ++ (data.drop (data.length - 5)).map Event.printRow
    ++ [.print e]

/-- The successive slices `all_data[start_pos : start_pos + BATCH_SIZE]`
taken by the while-loop of `append_data` (lines 201-207), in issue order. -/
def chunks {β : Type} : List β → List (List β)
  | [] => []
  | b :: t => ((b :: t).take BATCH_SIZE) :: chunks ((b :: t).drop BATCH_SIZE)
termination_by l => l.length
decreasing_by
  simp only [BATCH_SIZE, List.length_drop, List.length_cons]
  omega

/-- Lines 201-213, the batching while-loop of `append_data`: slice off up to
`BATCH_SIZE` rows, print the progress line, run `executemany`; on a driver
exception print the diagnostics of `_print_data_error` and `sys.exit(1)`
(no further batches are attempted), otherwise print the success line and
continue with the remaining rows. -/
def append_loop {α : Type} (manyFail : Stmt → List (List α) → Option String)
    (stmt : Stmt) (table : String) :
    List (List α) → Nat → List (Event α) × Outcome
  | [], _ => ([], .ok)
  | r :: t, start_pos =>
    let data := (r :: t).take BATCH_SIZE
    let dlen := data.length - 1
    let hdr : Event α := .print s!"    appending rows [{start_pos}:{dlen}]"
    match manyFail stmt data with
    | some e =>
        ([hdr, .execMany stmt data] ++ print_data_error_events stmt data e, .exited 1)
    | none =>
        let rest := append_loop manyFail stmt table ((r :: t).drop BATCH_SIZE)
          (start_pos + BATCH_SIZE)
        ([hdr, .execMany stmt data,
          .print s!"Successfully appended rows to table '{table}'"] ++ rest.1, rest.2)
termination_by l _ => l.length
decreasing_by
  simp only [BATCH_SIZE, List.length_drop, List.length_cons]
  omega

/-- Lines 190-213, `append_data`: print the header, read `len(all_data[0])`
— an unguarded subscript that raises `IndexError` on an empty row set,
before any truncate or insert — then optionally truncate, build the
positional-bind `INSERT` statement, and run the batching loop. -/
def append_data_run {α : Type} (execFail : Stmt → Option String)
    (manyFail : Stmt → List (List α) → Option String)
    (all_data : List (List α)) (table : String) (truncate : Bool) :
    List (Event α) × Outcome :=
  let ev0 : Event α := .print s!"Appending to \"{table}\""
  match all_data with
  | [] => ([ev0], .raised "IndexError: list index out of range")
  | first :: rest =>
    let values := placeholder_values first.length
    let tr := if truncate then truncate_data_run execFail table else ([], .ok)
    match tr.2 with
    | .ok =>
      let stmt := Stmt.insertValues table values
      let lp := append_loop manyFail stmt table (first :: rest) 0
      (ev0 :: (tr.1 ++ lp.1), lp.2)
    | o => (ev0 :: tr.1, o)

/-- Lines 215-231, `delete_data`: on an empty key array, log the no-op and
execute nothing; otherwise bind each key as a one-element tuple
(`list(zip(np_array))`) and run a single `executemany` of the one-column
`DELETE`; on a driver exception print the statement and re-raise the same
exception to the caller. -/
def delete_data_run {V : Type} (manyFail : Stmt → List (List V) → Option String)
    (np_array : List V) (table column : String) :
    List (Event V) × Outcome :=
  if np_array.length ≠ 0 then
    let stmt := Stmt.deleteWhere table column
    let data := np_array.map fun v => [v]
    match manyFail stmt data with
    | some e =>
        ([.execMany stmt data, .print "Execution Statement Failed:",
          .print stmt.toSql], .raised e)
    | none =>
        ([.execMany stmt data,
          .print s!"Successfully deleted rows from table '{table}'"], .ok)
  else
    ([.print "Not deleting - Array has length 0"], .ok)

/-- Lines 31-39, `commit_transactions`: commit if the flag is set, roll back
otherwise, then print which happened. -/
def commit_transactions_events {α : Type} (commit : Bool) : List (Event α) :=
  let word := if commit then "COMMITTED" else "ROLLED BACK"
  [if commit then Event.commitTx else Event.rollbackTx,
   .print s!"All database transactions were {word}"]

/-- Lines 99-101: `old_cols`, `table.col AS OLD_col` for each dataframe
column. -/
def old_cols_of (dfCols : List String) (table : String) : List String :=
  dfCols.map fun col => table ++ "." ++ col ++ " AS OLD_" ++ col

/-- Lines 102-104: `new_cols`, `temp.col AS NEW_col` for each dataframe
column. -/
def new_cols_of (dfCols : List String) (temp_table : String) : List String :=
  dfCols.map fun col => temp_table ++ "." ++ col ++ " AS NEW_" ++ col

/-- Lines 106-108: `join_cols`, the equi-join condition `table.col =
temp.col` for each join key. -/
def join_cols_of (join_keys : List String) (table temp_table : String) : List String :=
  join_keys.map fun col => table ++ "." ++ col ++ " = " ++ temp_table ++ "." ++ col

/-- The column names the `SET` clause assigns: every dataframe column not
among the join keys (the filter of lines 110-112). -/
def upd_cols (dfCols join_keys : List String) : List String :=
  dfCols.filter fun col => !(join_keys.contains col)

/-- Lines 110-112: `set_cols`, the clause `joined.OLD_col = joined.NEW_col`
for every dataframe column not among the join keys. -/
def set_cols_of (dfCols join_keys : List String) : List String :=
  (upd_cols dfCols join_keys).map fun col => "joined.OLD_" ++ col ++ " = joined.NEW_" ++ col

/-- Lines 60-149, `update_join`: create the scratch table `TEMP_table` as an
empty structural copy, add the join keys as a primary key, append the
dataframe into the scratch table (`append_df` = `format_data` +
`append_data`, no truncate), build the `UPDATE`/`DELETE`/`INSERT` statements
from the mutated dataframe's column names, execute them in order, honour
the caller's commit flag via `commit_transactions`, and finally drop the
scratch table.  Any driver failure propagates (batch-insert failures exit
the process inside `append_data`). -/
def update_join_run {V : Type} (execFail : Stmt → Option String)
    (manyFail : Stmt → List (List (Option V)) → Option String)
    (df : DataFrame V) (desc : List String) (isNull : V → Bool)
    (table : String) (join_keys : List String) (commit : Bool) :
    List (Event (Option V)) × Outcome :=
  let temp_table := "TEMP_" ++ table
  let stmt_create := Stmt.createTempFrom temp_table table
  let stmt_pk := Stmt.addPK temp_table join_keys
  let evA : List (Event (Option V)) :=
    [.print s!"Creating new table {temp_table}", .exec stmt_create]
  match execFail stmt_create with
  | some e => (evA, .raised e)
  | none =>
  let evB := evA ++ [.print s!"Adding primary key(s) to {temp_table}", .exec stmt_pk]
  match execFail stmt_pk with
  | some e => (evB, .raised e)
  | none =>
  let fr := format_data_run execFail df desc isNull temp_table
  match fr.2 with
  | .error o => (evB ++ fr.1, o)
  | .ok recs =>
  let ar := append_data_run execFail manyFail recs temp_table false
  match ar.2 with
  | .ok =>
    let dfU := format_data_effect df
    let old_cols := old_cols_of dfU.cols table
    let new_cols := new_cols_of dfU.cols temp_table
    let join_cols := join_cols_of join_keys table temp_table
    let set_cols := set_cols_of dfU.cols join_keys
    let stmt_update := Stmt.updateJoin (old_cols ++ new_cols) join_cols set_cols table temp_table
    let stmt_delete := Stmt.deleteTemp temp_table table join_cols
    let stmt_insert := Stmt.insertFromTemp table temp_table
    let stmt_drop := Stmt.dropTable temp_table
    let evC := evB ++ fr.1 ++ ar.1 ++ [.print s!"Updating table {table}", .exec stmt_update]
    match execFail stmt_update with
    | some e => (evC, .raised e)
    | none =>
    let evD := evC ++ [.print s!"Successfully updated rows in table \"{table}\"",
      .exec stmt_delete]
    match execFail stmt_delete with
    | some e => (evD, .raised e)
    | none =>
    let evE := evD ++ [.print s!"Successfully deleted rows from temp table \"{temp_table}\"",
      .exec stmt_insert]
    match execFail stmt_insert with
    | some e => (evE, .raised e)
    | none =>
    let evF := evE
      ++ [.print s!"Successfully appended rows from temp table \"{temp_table}\" into table \"{table}\""]
      ++ commit_transactions_events commit
      ++ [.print s!"Dropping temp table {temp_table}", .exec stmt_drop]
    match execFail stmt_drop with
    | some e => (evF, .raised e)
    | none => (evF, .ok)
  | o => (evB ++ fr.1 ++ ar.1, o)

/-!
Relational layer:

The meaning of the merge's SQL statements over tables modelled as lists of
rows positionally aligned with a shared column list `cols` (the scratch
table is created as a structural copy of the target, so both share `cols`).
-/

/-- Join-key tuple of a row: the values of the `keys` columns. -/
def keyOf {V : Type} (cols keys : List String) (r : List V) : List (Option V) :=
  keys.map (colVal cols r)

/-- The equi-join condition `table.k = temp.k AND ...` of lines 106-109,
between a target row `t` and a scratch row `s`. -/
def keysMatch {V : Type} [DecidableEq V] (cols keys : List String)
    (t s : List V) : Bool :=
  decide (keyOf cols keys t = keyOf cols keys s)

/-- Effect of the `SET` clause on one joined row pair: every column listed
in `setCols` takes the scratch row's value (`joined.OLD_col =
joined.NEW_col`), every other column keeps the target row's value. -/
def overwrite {V : Type} (cols setCols : List String) (t s : List V) : List V :=
  (cols.zip (t.zip s)).map fun p => if setCols.contains p.1 then p.2.2 else p.2.1

/-- Meaning of the `UPDATE (SELECT ... INNER JOIN ...) joined SET ...` of
lines 114-124: each target row that joins with a scratch row (on the join
keys) is overwritten on the `SET` columns; rows with no join partner are
unchanged.  The primary key added on the scratch table makes the joining row
unique, so `find?` picks it. -/
def update_by_join {V : Type} [DecidableEq V] (cols keys setCols : List String)
    (target temp : List (List V)) : List (List V) :=
  target.map fun t =>
    match temp.find? (fun s => keysMatch cols keys t s) with
    | some s => overwrite cols setCols t s
    | none => t

/-- Meaning of the `DELETE FROM temp WHERE EXISTS (SELECT * FROM table WHERE
join conds)` of lines 125-133: scratch rows whose join key occurs in the
target table are removed; what remains are the unmatched scratch rows. -/
def delete_matched {V : Type} [DecidableEq V] (cols keys : List String)
    (target temp : List (List V)) : List (List V) :=
  temp.filter fun s => !(target.any fun t => keysMatch cols keys t s)

/-- Meaning of the `INSERT INTO table SELECT * FROM temp` of lines 134-138:
the remaining scratch rows are appended to the target. -/
def insert_from_temp {V : Type} (target temp : List (List V)) : List (List V) :=
  target ++ temp

/-- Steps 4-6 of `update_join` (lines 139-146) at the relational level:
update the target by the join, purge the applied rows from the scratch
table (the `DELETE` runs against the already-updated target), then append
the remainder of the scratch table to the target.  `staged` is the scratch
table's content after step 3 (the formatted dataframe rows); `setCols` is
the column-name list of the `SET` clause. -/
def merge_tables {V : Type} [DecidableEq V] (cols keys setCols : List String)
    (target staged : List (List V)) : List (List V) :=
  let updated := update_by_join cols keys setCols target staged
  let remaining := delete_matched cols keys updated staged
  insert_from_temp updated remaining

/-!
Observation helpers over traces.
-/

/-- Data payloads of the `executemany` calls in a trace, in issue order. -/
def exec_many_data {α : Type} (l : List (Event α)) : List (List (List α)) :=
  l.filterMap fun e => match e with
    | .execMany _ d => some d
    | _ => none

/-- Commit or rollback call on the connection. -/
def isCommitEv {α : Type} : Event α → Bool
  | .commitTx => true
  | .rollbackTx => true
  | _ => false

/-- Execution of a `DROP TABLE` statement. -/
def isDropEv {α : Type} : Event α → Bool
  | .exec (.dropTable _) => true
  | _ => false

/-- No commit/rollback call occurs at or after any `DROP TABLE` execution:
equivalently, every `DROP TABLE` comes strictly after every commit/rollback
present in the trace. -/
def no_commit_after_drop {α : Type} (l : List (Event α)) : Bool :=
  (l.dropWhile fun e => !isDropEv e).all fun e => !isCommitEv e

/-!
Helper lemmas.
-/

theorem chunks_length {β : Type} (l : List β) :
    (chunks l).length = (l.length + BATCH_SIZE - 1) / BATCH_SIZE := by
  induction l using chunks.induct with
  | case1 => simp [chunks, BATCH_SIZE]
  | case2 b t ih =>
    rw [chunks]
    simp only [List.length_cons, List.length_drop] at *
    simp only [BATCH_SIZE] at *
    omega

theorem chunks_flatten {β : Type} (l : List β) : (chunks l).flatten = l := by
  induction l using chunks.induct with
  | case1 => simp [chunks]
  | case2 b t ih =>
    rw [chunks]
    simp only [List.flatten_cons, ih, List.take_append_drop]

theorem chunks_le {β : Type} (l : List β) : ∀ c ∈ chunks l, c.length ≤ BATCH_SIZE := by
  induction l using chunks.induct with
  | case1 => simp [chunks]
  | case2 b t ih =>
    rw [chunks]
    intro c hc
    rcases List.mem_cons.mp hc with h | h
    · subst h; simp [List.length_take]
    · exact ih c h

theorem toNat_ofNat_valid (n : Nat) (h1 : 65 ≤ n) (h2 : n ≤ 90) :
    (Char.ofNat n).toNat = n := by
  have hv : n.isValidChar := Or.inl (by omega)
  rw [Char.ofNat]
  simp only [hv, dif_pos, Char.ofNatAux, Char.toNat, UInt32.toNat, BitVec.toNat_ofNatLt]

theorem char_toUpper_idem (c : Char) : (Char.toUpper c).toUpper = Char.toUpper c := by
  unfold Char.toUpper
  by_cases h : c.toNat ≥ 97 ∧ c.toNat ≤ 122
  · simp only [if_pos h]
    have ht : (Char.ofNat (c.toNat - 32)).toNat = c.toNat - 32 :=
      toNat_ofNat_valid _ (by omega) (by omega)
    rw [ht]
    have hn : ¬(c.toNat - 32 ≥ 97 ∧ c.toNat - 32 ≤ 122) := by omega
    simp only [ge_iff_le, hn, if_neg]
    simp
  · simp [h]

theorem string_toUpper_idem (s : String) : s.toUpper.toUpper = s.toUpper := by
  simp only [String.toUpper, String.map_eq, List.map_map]
  congr 1
  exact List.map_congr_left fun c _ => char_toUpper_idem c

theorem exec_many_data_append {α : Type} (l1 l2 : List (Event α)) :
    exec_many_data (l1 ++ l2) = exec_many_data l1 ++ exec_many_data l2 :=
  List.filterMap_append l1 l2 _

theorem exec_many_data_printRow {α : Type} (rows : List (List α)) :
    exec_many_data (rows.map Event.printRow) = [] := by
  induction rows with
  | nil => rfl
  | cons r t ih =>
    simp only [List.map_cons, exec_many_data, List.filterMap_cons] at ih ⊢
    exact ih

theorem exec_many_data_print_error {α : Type} (stmt : Stmt) (data : List (List α))
    (e : String) : exec_many_data (print_data_error_events stmt data e) = [] := by
  simp [print_data_error_events, exec_many_data_append, exec_many_data_printRow,
    exec_many_data]
  constructor
  · intro a ha
    obtain ⟨row, _, rfl⟩ := List.mem_map.mp (List.mem_of_mem_take ha)
    rfl
  · intro a ha
    obtain ⟨row, _, rfl⟩ := List.mem_map.mp (List.mem_of_mem_drop ha)
    rfl

theorem append_loop_ok {α : Type} (manyFail : Stmt → List (List α) → Option String)
    (stmt : Stmt) (table : String) (l : List (List α)) (sp : Nat)
    (h : ∀ d ∈ chunks l, manyFail stmt d = none) :
    (append_loop manyFail stmt table l sp).2 = .ok ∧
    exec_many_data (append_loop manyFail stmt table l sp).1 = chunks l := by
  induction l using chunks.induct generalizing sp with
  | case1 => simp [append_loop, chunks, exec_many_data]
  | case2 b t ih =>
    have hd : manyFail stmt ((b :: t).take BATCH_SIZE) = none := by
      apply h
      rw [chunks]
      exact List.mem_cons_self _ _
    rw [append_loop, hd]
    have hrest : ∀ d ∈ chunks ((b :: t).drop BATCH_SIZE), manyFail stmt d = none := by
      intro d hdm
      apply h
      rw [chunks]
      exact List.mem_cons_of_mem _ hdm
    obtain ⟨h1, h2⟩ := ih (sp + BATCH_SIZE) hrest
    refine ⟨h1, ?_⟩
    conv_rhs => rw [chunks]
    simp only [exec_many_data, List.filterMap_cons, List.filterMap_append] at h2 ⊢
    simpa using h2

theorem append_loop_fail {α : Type} (manyFail : Stmt → List (List α) → Option String)
    (stmt : Stmt) (table : String) (l : List (List α)) (sp : Nat) (i : Nat)
    (data : List (List α)) (e : String)
    (hch : (chunks l)[i]? = some data)
    (hfail : manyFail stmt data = some e)
    (hbefore : ∀ j, j < i → ∀ d, (chunks l)[j]? = some d → manyFail stmt d = none) :
    (append_loop manyFail stmt table l sp).2 = .exited 1 ∧
    exec_many_data (append_loop manyFail stmt table l sp).1 = (chunks l).take (i + 1) ∧
    (print_data_error_events stmt data e) <:+ (append_loop manyFail stmt table l sp).1 := by
  induction l using chunks.induct generalizing sp i with
  | case1 => rw [chunks] at hch; simp at hch
  | case2 b t ih =>
    rw [chunks] at hch hbefore ⊢
    cases i with
    | zero =>
      obtain rfl : (b :: t).take BATCH_SIZE = data := by simpa using hch
      rw [append_loop, hfail]
      refine ⟨rfl, ?_, ?_⟩
      · rw [exec_many_data_append, exec_many_data_print_error]
        simp [exec_many_data]
      · exact List.suffix_append _ _
    | succ j =>
      have h0 : manyFail stmt ((b :: t).take BATCH_SIZE) = none :=
        hbefore 0 (Nat.succ_pos _) _ (by simp)
      rw [append_loop, h0]
      obtain ⟨o1, o2, o3⟩ := ih (sp + BATCH_SIZE) j (by simpa using hch)
        (fun j2 hj2 d hd => hbefore (j2 + 1) (by omega) d (by simpa using hd))
      refine ⟨o1, ?_, ?_⟩
      · rw [List.take_succ_cons, ← o2, exec_many_data_append]
        rfl
      · exact o3.trans (List.suffix_append _ _)

theorem contains_eq_true_iff {l : List String} {c : String} :
    l.contains c = true ↔ c ∈ l := by
  simp [List.contains, List.elem_iff]

theorem format_data_ok {V : Type} (df : DataFrame V) (desc : List String)
    (isNull : V → Bool) (table : String)
    (hdesc : ∀ c ∈ desc, c ∈ df.cols.map String.toUpper) :
    format_data df desc isNull table =
      .ok (df.rows.map fun row => desc.map fun c =>
        normalize isNull (colVal (df.cols.map String.toUpper) row c)) := by
  unfold format_data format_data_effect
  have hfind : desc.find? (fun c => !((df.cols.map String.toUpper).contains c)) = none := by
    rw [List.find?_eq_none]
    intro x hx hbad
    rw [contains_eq_true_iff.mpr (hdesc x hx)] at hbad
    simp at hbad
  simp only [hfind]

theorem mem_print_data_error {α : Type} {stmt : Stmt} {data : List (List α)}
    {e : String} {ev : Event α} (h : ev ∈ print_data_error_events stmt data e) :
    (∃ s, ev = Event.print s) ∨ ∃ r, ev = Event.printRow r := by
  simp only [print_data_error_events, List.mem_append, List.mem_cons,
    List.not_mem_nil, or_false, List.mem_map] at h
  aesop

theorem print_data_error_quiet {α : Type} {stmt : Stmt} {data : List (List α)}
    {e : String} {ev : Event α} (h : ev ∈ print_data_error_events stmt data e) :
    isDropEv ev = false ∧ isCommitEv ev = false := by
  rcases mem_print_data_error h with ⟨s, rfl⟩ | ⟨r, rfl⟩ <;> exact ⟨rfl, rfl⟩

theorem append_loop_quiet {α : Type} (manyFail : Stmt → List (List α) → Option String)
    (stmt : Stmt) (table : String) (l : List (List α)) (sp : Nat) :
    ∀ ev ∈ (append_loop manyFail stmt table l sp).1,
      isDropEv ev = false ∧ isCommitEv ev = false := by
  induction l using chunks.induct generalizing sp with
  | case1 => simp [append_loop]
  | case2 b t ih =>
    rw [append_loop]
    cases hf : manyFail stmt ((b :: t).take BATCH_SIZE) with
    | some e =>
      intro ev hev
      simp only [List.mem_append, List.mem_cons, List.not_mem_nil, or_false] at hev
      rcases hev with (rfl | rfl) | h
      · exact ⟨rfl, rfl⟩
      · exact ⟨rfl, rfl⟩
      · exact print_data_error_quiet h
    | none =>
      intro ev hev
      simp only [List.mem_append, List.mem_cons, List.not_mem_nil, or_false] at hev
      rcases hev with (rfl | rfl | rfl) | h
      · exact ⟨rfl, rfl⟩
      · exact ⟨rfl, rfl⟩
      · exact ⟨rfl, rfl⟩
      · exact ih (sp + BATCH_SIZE) ev h

theorem truncate_data_run_quiet {α : Type} (execFail : Stmt → Option String)
    (table : String) :
    ∀ ev ∈ (@truncate_data_run α execFail table).1,
      isDropEv ev = false ∧ isCommitEv ev = false := by
  intro ev hev
  unfold truncate_data_run at hev
  rcases hef : execFail (Stmt.deleteAll table) with _ | e
  · simp only [hef, List.mem_cons, List.not_mem_nil, or_false] at hev
    rcases hev with rfl | rfl <;> exact ⟨rfl, rfl⟩
  · simp only [hef, List.mem_cons, List.not_mem_nil, or_false] at hev
    rcases hev with rfl <;> exact ⟨rfl, rfl⟩

theorem append_data_run_quiet {α : Type} (execFail : Stmt → Option String)
    (manyFail : Stmt → List (List α) → Option String)
    (all_data : List (List α)) (table : String) (truncate : Bool) :
    ∀ ev ∈ (append_data_run execFail manyFail all_data table truncate).1,
      isDropEv ev = false ∧ isCommitEv ev = false := by
  unfold append_data_run
  cases all_data with
  | nil =>
    intro ev hev
    obtain rfl := List.mem_singleton.mp hev
    exact ⟨rfl, rfl⟩
  | cons first rest =>
    cases truncate with
    | false =>
      simp only [if_neg Bool.false_ne_true]
      intro ev hev
      simp only [List.mem_cons, List.nil_append] at hev
      rcases hev with rfl | h
      · exact ⟨rfl, rfl⟩
      · exact append_loop_quiet _ _ _ _ _ ev h
    | true =>
      simp only [if_pos rfl]
      have htr := @truncate_data_run_quiet α execFail table
      generalize hg : @truncate_data_run α execFail table = tr at htr ⊢
      obtain ⟨evs, oc⟩ := tr
      cases oc with
      | ok =>
        intro ev hev
        rcases List.mem_cons.mp hev with rfl | h
        · exact ⟨rfl, rfl⟩
        rcases List.mem_append.mp h with h2 | h2
        · exact htr ev h2
        · exact append_loop_quiet _ _ _ _ _ ev h2
      | exited c =>
        intro ev hev
        rcases List.mem_cons.mp hev with rfl | h
        · exact ⟨rfl, rfl⟩
        · exact htr ev h
      | raised e =>
        intro ev hev
        rcases List.mem_cons.mp hev with rfl | h
        · exact ⟨rfl, rfl⟩
        · exact htr ev h

theorem nca_of_no_drop {α : Type} (l : List (Event α))
    (h : ∀ ev ∈ l, isDropEv ev = false) : no_commit_after_drop l = true := by
  unfold no_commit_after_drop
  have : l.dropWhile (fun e => !isDropEv e) = [] := by
    rw [List.dropWhile_eq_nil_iff]
    intro x hx
    simp [h x hx]
  rw [this]
  rfl

theorem nca_of_append_drop {α : Type} (P : List (Event α)) (tt : String)
    (h : ∀ ev ∈ P, isDropEv ev = false) :
    no_commit_after_drop (P ++ [Event.exec (Stmt.dropTable tt)]) = true := by
  unfold no_commit_after_drop
  rw [List.dropWhile_append]
  have hP : P.dropWhile (fun e => !isDropEv e) = [] := by
    rw [List.dropWhile_eq_nil_iff]
    intro x hx
    simp [h x hx]
  rw [hP]
  rfl

theorem append_data_run_cons_false {α : Type} (execFail : Stmt → Option String)
    (manyFail : Stmt → List (List α) → Option String) (a : List α)
    (l : List (List α)) (tb : String) :
    append_data_run execFail manyFail (a :: l) tb false
      = (Event.print s!"Appending to \"{tb}\"" ::
          (append_loop manyFail (Stmt.insertValues tb (placeholder_values a.length)) tb (a :: l) 0).1,
         (append_loop manyFail (Stmt.insertValues tb (placeholder_values a.length)) tb (a :: l) 0).2) := by
  unfold append_data_run
  simp

theorem append_data_run_cons_true {α : Type} (execFail : Stmt → Option String)
    (manyFail : Stmt → List (List α) → Option String) (a : List α)
    (l : List (List α)) (tb : String) (h : execFail (Stmt.deleteAll tb) = none) :
    append_data_run execFail manyFail (a :: l) tb true
      = (Event.print s!"Appending to \"{tb}\"" ::
          ([Event.exec (Stmt.deleteAll tb),
            Event.print s!"Successfully deleted rows from table \"{tb}\""]
            ++ (append_loop manyFail (Stmt.insertValues tb (placeholder_values a.length)) tb (a :: l) 0).1),
         (append_loop manyFail (Stmt.insertValues tb (placeholder_values a.length)) tb (a :: l) 0).2) := by
  unfold append_data_run truncate_data_run
  simp [h]

/-!
Claims.
-/

/-- C9: For the empty row set (zero records), batch append
(`append_data`) raises an unguarded index error while computing the
positional-bind placeholders from the first record (`all_data[0]`, line
195), before any truncate or insert statement is issued; the empty input is
not handled as a no-op.  The run's entire trace is the single header print:
in particular it contains no statement execution of any kind. -/
theorem append_data_empty_raises {α : Type} (execFail : Stmt → Option String)
    (manyFail : Stmt → List (List α) → Option String) (table : String)
    (truncate : Bool) :
    append_data_run execFail manyFail ([] : List (List α)) table truncate
      = ([Event.print s!"Appending to \"{table}\""],
         .raised "IndexError: list index out of range") ∧
    ∀ ev ∈ (append_data_run execFail manyFail ([] : List (List α)) table truncate).1,
      (∀ s : Stmt, ev ≠ .exec s) ∧ (∀ s d, ev ≠ .execMany s d) := by
  refine ⟨rfl, ?_⟩
  intro ev hev
  obtain rfl := List.mem_singleton.mp hev
  exact ⟨fun s => by simp, fun s d => by simp⟩

/-- C3: For every non-empty input of `N` rows and the batch size
`BATCH_SIZE = 20000`, a failure-free batch append (`append_data`) issues
exactly `⌈N / BATCH_SIZE⌉` insert executions (the `executemany` calls of the
trace), each carrying at most `BATCH_SIZE` rows, and the concatenation of
the batches in issue order equals the input row sequence. -/
theorem append_data_batches {α : Type} (execFail : Stmt → Option String)
    (manyFail : Stmt → List (List α) → Option String) (first : List α)
    (rest : List (List α)) (table : String) (truncate : Bool)
    (hmany : ∀ s d, manyFail s d = none)
    (htr : truncate = true → execFail (Stmt.deleteAll table) = none) :
    exec_many_data (append_data_run execFail manyFail (first :: rest) table truncate).1
        = chunks (first :: rest) ∧
    (append_data_run execFail manyFail (first :: rest) table truncate).2 = .ok ∧
    (chunks (first :: rest)).length
        = ((first :: rest).length + BATCH_SIZE - 1) / BATCH_SIZE ∧
    (∀ b ∈ chunks (first :: rest), b.length ≤ BATCH_SIZE) ∧
    (chunks (first :: rest)).flatten = first :: rest := by
  have hlp := append_loop_ok manyFail
    (Stmt.insertValues table (placeholder_values first.length)) table (first :: rest) 0
    (fun d _ => hmany _ d)
  cases truncate with
  | false =>
    rw [append_data_run_cons_false]
    refine ⟨?_, hlp.1, chunks_length _, chunks_le _, chunks_flatten _⟩
    simp only [exec_many_data, List.filterMap_cons]
    exact hlp.2
  | true =>
    rw [append_data_run_cons_true execFail manyFail first rest table (htr rfl)]
    refine ⟨?_, hlp.1, chunks_length _, chunks_le _, chunks_flatten _⟩
    simp only [exec_many_data, List.filterMap_cons, List.filterMap_append]
    exact hlp.2

/-- Witness for C3 at a concrete input: three rows, no truncation, a
failure-free driver; one batch carrying all rows is issued. -/
theorem append_data_batches_witness :
    exec_many_data (append_data_run (fun _ => none) (fun _ _ => none)
        ([1, 2] :: [[3, 4]]) "T" false).1 = chunks ([1, 2] :: [[3, 4]]) ∧
    (append_data_run (fun _ => none) (fun _ _ => none)
        ([1, 2] :: [[3, 4]]) "T" false).2 = .ok ∧
    (chunks ([1, 2] :: [[3, 4]])).length
        = (([1, 2] :: [[3, 4]]).length + BATCH_SIZE - 1) / BATCH_SIZE ∧
    (∀ b ∈ chunks ([1, 2] :: [[3, 4]]), b.length ≤ BATCH_SIZE) ∧
    (chunks ([1, 2] :: [[3, 4]])).flatten = [1, 2] :: [[3, 4]] :=
  append_data_batches (fun _ => none) (fun _ _ => none) [1, 2] [[3, 4]] "T" false
    (fun _ _ => rfl) (fun h => nomatch h)

/-- C6: For every batch-insert execution that raises a driver
exception (batch `i` is the first failing one), batch append prints the
failing statement text, a preview of the first five and last five rows of
that batch, and the exception (the trailing `print_data_error_events`
suffix of the trace), then terminates the process with exit status 1
instead of returning; no further batches are attempted (the `executemany`
payloads of the trace are exactly the batches up to and including the
failing one). -/
theorem append_data_batch_failure_exits {α : Type} (execFail : Stmt → Option String)
    (manyFail : Stmt → List (List α) → Option String) (first : List α)
    (rest : List (List α)) (table : String) (truncate : Bool) (i : Nat)
    (data : List (List α)) (e : String)
    (htr : truncate = true → execFail (Stmt.deleteAll table) = none)
    (hch : (chunks (first :: rest))[i]? = some data)
    (hfail : manyFail (Stmt.insertValues table (placeholder_values first.length)) data
        = some e)
    (hbefore : ∀ j, j < i → ∀ d, (chunks (first :: rest))[j]? = some d →
        manyFail (Stmt.insertValues table (placeholder_values first.length)) d = none) :
    (append_data_run execFail manyFail (first :: rest) table truncate).2 = .exited 1 ∧
    exec_many_data (append_data_run execFail manyFail (first :: rest) table truncate).1
        = (chunks (first :: rest)).take (i + 1) ∧
    print_data_error_events (Stmt.insertValues table (placeholder_values first.length))
        data e
      <:+ (append_data_run execFail manyFail (first :: rest) table truncate).1 := by
  have hlp := append_loop_fail manyFail
    (Stmt.insertValues table (placeholder_values first.length)) table (first :: rest) 0
    i data e hch hfail hbefore
  cases truncate with
  | false =>
    rw [append_data_run_cons_false]
    refine ⟨hlp.1, ?_, ?_⟩
    · simp only [exec_many_data, List.filterMap_cons]
      exact hlp.2.1
    · exact hlp.2.2.trans (List.suffix_cons _ _)
  | true =>
    rw [append_data_run_cons_true execFail manyFail first rest table (htr rfl)]
    refine ⟨hlp.1, ?_, ?_⟩
    · simp only [exec_many_data, List.filterMap_cons, List.filterMap_append]
      exact hlp.2.1
    · refine hlp.2.2.trans ?_
      rw [← List.cons_append]
      exact List.suffix_append _ _

/-- Witness for C6 at a concrete input: a single batch whose `executemany`
raises; the run exits with status 1 after printing the diagnostics. -/
theorem append_data_batch_failure_exits_witness :
    (append_data_run (fun _ => none) (fun _ _ => some "ORA-00001")
        ([(7 : Nat)] :: []) "T" false).2 = .exited 1 ∧
    exec_many_data (append_data_run (fun _ => none) (fun _ _ => some "ORA-00001")
        ([(7 : Nat)] :: []) "T" false).1 = (chunks ([(7 : Nat)] :: [])).take (0 + 1) ∧
    print_data_error_events (Stmt.insertValues "T" (placeholder_values [(7 : Nat)].length))
        [[7]] "ORA-00001"
      <:+ (append_data_run (fun _ => none) (fun _ _ => some "ORA-00001")
        ([(7 : Nat)] :: []) "T" false).1 :=
  append_data_batch_failure_exits (fun _ => none) (fun _ _ => some "ORA-00001")
    [(7 : Nat)] [] "T" false 0 [[7]] "ORA-00001" (fun h => nomatch h)
    (by rw [chunks]; simp [BATCH_SIZE]) rfl (fun j hj => by omega)

/-- C7: For every non-empty key set, when the keyed delete's `DELETE`
execution raises a driver exception, `delete_data` logs the failing
statement and re-raises that same exception to the caller; it does not
terminate the process (no `sys.exit`) and does not swallow the error. -/
theorem delete_data_failure_reraises {V : Type}
    (manyFail : Stmt → List (List V) → Option String) (np_array : List V)
    (table column : String) (e : String) (hne : np_array ≠ [])
    (hfail : manyFail (Stmt.deleteWhere table column) (np_array.map fun v => [v])
        = some e) :
    (delete_data_run manyFail np_array table column).2 = .raised e ∧
    Event.print "Execution Statement Failed:"
        ∈ (delete_data_run manyFail np_array table column).1 ∧
    Event.print (Stmt.deleteWhere table column).toSql
        ∈ (delete_data_run manyFail np_array table column).1 ∧
    ∀ c, (delete_data_run manyFail np_array table column).2 ≠ .exited c := by
  have hlen : np_array.length ≠ 0 := fun h => hne (List.length_eq_zero.mp h)
  unfold delete_data_run
  rw [if_pos hlen]
  simp only [hfail]
  refine ⟨by simp, ?_, ?_, ?_⟩
  · simp
  · simp
  · intro c h
    simp at h

/-- Witness for C7 at a concrete input: one key, a raising driver; the
exception is re-raised unchanged. -/
theorem delete_data_failure_reraises_witness :
    (delete_data_run (fun _ _ => some "ORA-00942") [(5 : Nat)] "T" "K").2
        = .raised "ORA-00942" ∧
    Event.print "Execution Statement Failed:"
        ∈ (delete_data_run (fun _ _ => some "ORA-00942") [(5 : Nat)] "T" "K").1 ∧
    Event.print (Stmt.deleteWhere "T" "K").toSql
        ∈ (delete_data_run (fun _ _ => some "ORA-00942") [(5 : Nat)] "T" "K").1 ∧
    ∀ c, (delete_data_run (fun _ _ => some "ORA-00942") [(5 : Nat)] "T" "K").2
        ≠ .exited c :=
  delete_data_failure_reraises (fun _ _ => some "ORA-00942") [(5 : Nat)] "T" "K"
    "ORA-00942" (by simp) rfl

/-- C8: For the empty delete-key set, keyed delete (`delete_data`)
executes zero `DELETE` statements (its whole trace is the no-op log print)
and raises no error; for every non-empty key set whose execution succeeds,
it issues one batched `executemany` of the single-column positional-bind
`DELETE`, binding each key as a one-element tuple. -/
theorem delete_data_empty_noop {V : Type}
    (manyFail : Stmt → List (List V) → Option String) (np_array : List V)
    (table column : String) :
    (delete_data_run manyFail ([] : List V) table column
        = ([Event.print "Not deleting - Array has length 0"], .ok)) ∧
    (np_array ≠ [] →
      manyFail (Stmt.deleteWhere table column) (np_array.map fun v => [v]) = none →
      delete_data_run manyFail np_array table column
        = ([Event.execMany (Stmt.deleteWhere table column) (np_array.map fun v => [v]),
            Event.print s!"Successfully deleted rows from table '{table}'"], .ok)) := by
  constructor
  · rfl
  · intro hne hok
    have hlen : np_array.length ≠ 0 := fun h => hne (List.length_eq_zero.mp h)
    unfold delete_data_run
    rw [if_pos hlen]
    simp only [hok]

/-- Witness for C8: the empty array is a logged no-op with no executions,
and a one-key array issues the single batched `DELETE`. -/
theorem delete_data_empty_noop_witness :
    (delete_data_run (fun _ _ => none) ([] : List Nat) "T" "K"
        = ([Event.print "Not deleting - Array has length 0"], .ok)) ∧
    (delete_data_run (fun _ _ => none) [(3 : Nat)] "T" "K"
        = ([Event.execMany (Stmt.deleteWhere "T" "K") ([(3 : Nat)].map fun v => [v]),
            Event.print s!"Successfully deleted rows from table 'T'"], .ok)) :=
  ⟨(delete_data_empty_noop (fun _ _ => none) [(3 : Nat)] "T" "K").1,
   (delete_data_empty_noop (fun _ _ => none) [(3 : Nat)] "T" "K").2 (by simp) rfl⟩

/-- C2: Schema reconciliation (`format_data`): if any live-schema
column is absent from the (upper-cased) dataframe columns it raises a
schema-mismatch `IndexError` instead of returning; otherwise it returns one
record per dataframe row whose fields follow exactly the live schema's
column order `desc` (field `j` of record `k` is row `k`'s normalised value
at column `desc[j]`, so dataframe columns absent from `desc` are dropped),
and every returned column name is its own upper-case form. -/
theorem format_data_schema_reconciliation {V : Type} (df : DataFrame V)
    (desc : List String) (isNull : V → Bool) (table : String) :
    ((∃ c ∈ desc, c ∉ df.cols.map String.toUpper) →
        ∃ msg, format_data df desc isNull table = .error msg) ∧
    ((∀ c ∈ desc, c ∈ df.cols.map String.toUpper) →
        format_data df desc isNull table
            = .ok (df.rows.map fun row => desc.map fun c =>
                normalize isNull (colVal (df.cols.map String.toUpper) row c)) ∧
        (df.rows.map fun row => desc.map fun c =>
            normalize isNull (colVal (df.cols.map String.toUpper) row c)).length
          = df.rows.length ∧
        (∀ rec ∈ df.rows.map fun row => desc.map fun c =>
            normalize isNull (colVal (df.cols.map String.toUpper) row c),
          rec.length = desc.length) ∧
        (∀ c ∈ desc, c.toUpper = c)) := by
  constructor
  · rintro ⟨c, hc, hcm⟩
    unfold format_data format_data_effect
    rcases hfind : desc.find? (fun c => !((df.cols.map String.toUpper).contains c))
      with _ | c2
    · exfalso
      rw [List.find?_eq_none] at hfind
      have := hfind c hc
      simp only [Bool.not_eq_true', Bool.not_eq_false] at this
      exact hcm (contains_eq_true_iff.mp this)
    · refine ⟨s!"IndexError: Column \"{c2}\" from database table \"{table}\" not in dataframe", ?_⟩
      simp only [hfind]
  · intro hdesc
    refine ⟨format_data_ok df desc isNull table hdesc, List.length_map _ _, ?_, ?_⟩
    · intro rec hrec
      obtain ⟨row, _, rfl⟩ := List.mem_map.mp hrec
      exact List.length_map _ _
    · intro c hc
      obtain ⟨c0, _, rfl⟩ := List.mem_map.mp (hdesc c hc)
      exact string_toUpper_idem c0

/-- Witness for C2 at concrete inputs: a dataframe with a lower-case name
and an extra column against schema `["ID"]` reconciles; against schema
`["MISSING"]` it raises. -/
theorem format_data_schema_reconciliation_witness :
    ((∀ c ∈ ["ID"], c ∈ (DataFrame.mk ["id", "extra"] [["1", "x"]]).cols.map String.toUpper) ∧
      (format_data (DataFrame.mk ["id", "extra"] [["1", "x"]]) ["ID"] (fun v => v = "") "T"
          = .ok ((DataFrame.mk ["id", "extra"] [["1", "x"]]).rows.map fun row =>
              ["ID"].map fun c => normalize (fun v => v = "")
                (colVal ((DataFrame.mk ["id", "extra"] [["1", "x"]]).cols.map String.toUpper) row c)) ∧
        ((DataFrame.mk ["id", "extra"] [["1", "x"]]).rows.map fun row =>
            ["ID"].map fun c => normalize (fun v => v = "")
              (colVal ((DataFrame.mk ["id", "extra"] [["1", "x"]]).cols.map String.toUpper) row c)).length
          = (DataFrame.mk ["id", "extra"] [["1", "x"]]).rows.length ∧
        (∀ rec ∈ (DataFrame.mk ["id", "extra"] [["1", "x"]]).rows.map fun row =>
            ["ID"].map fun c => normalize (fun v => v = "")
              (colVal ((DataFrame.mk ["id", "extra"] [["1", "x"]]).cols.map String.toUpper) row c),
          rec.length = (["ID"] : List String).length) ∧
        (∀ c ∈ ["ID"], c.toUpper = c))) ∧
    ((∃ c ∈ ["MISSING"], c ∉ (DataFrame.mk ["id"] ([] : List (List String))).cols.map String.toUpper) ∧
      ∃ msg, format_data (DataFrame.mk ["id"] ([] : List (List String))) ["MISSING"]
          (fun v => v = "") "T" = .error msg) :=
  ⟨⟨by simp only [List.map_cons, List.map_nil, String.toUpper, String.map_eq]; decide,
    (format_data_schema_reconciliation (DataFrame.mk ["id", "extra"] [["1", "x"]])
      ["ID"] (fun v => v = "") "T").2
      (by simp only [List.map_cons, List.map_nil, String.toUpper, String.map_eq]; decide)⟩,
   ⟨⟨"MISSING", by decide, by simp only [List.map_cons, List.map_nil, String.toUpper, String.map_eq]; decide⟩,
    (format_data_schema_reconciliation (DataFrame.mk ["id"] ([] : List (List String)))
      ["MISSING"] (fun v => v = "") "T").1
      ⟨"MISSING", by decide, by simp only [List.map_cons, List.map_nil, String.toUpper, String.map_eq]; decide⟩⟩⟩

theorem update_join_run_success {V : Type} (execFail : Stmt → Option String)
    (manyFail : Stmt → List (List (Option V)) → Option String)
    (df : DataFrame V) (desc : List String) (isNull : V → Bool)
    (table : String) (join_keys : List String) (commit : Bool)
    (hexec : ∀ s, execFail s = none) (hmany : ∀ s d, manyFail s d = none)
    (hdesc : ∀ c ∈ desc, c ∈ df.cols.map String.toUpper) (hrows : df.rows ≠ []) :
    (update_join_run execFail manyFail df desc isNull table join_keys commit).2 = .ok ∧
    ∃ P p, (update_join_run execFail manyFail df desc isNull table join_keys commit).1
        = P ++ commit_transactions_events commit
            ++ [Event.print p, Event.exec (Stmt.dropTable ("TEMP_" ++ table))] ∧
      Event.exec (Stmt.updateJoin
          (old_cols_of (df.cols.map String.toUpper) table
            ++ new_cols_of (df.cols.map String.toUpper) ("TEMP_" ++ table))
          (join_cols_of join_keys table ("TEMP_" ++ table))
          (set_cols_of (df.cols.map String.toUpper) join_keys)
          table ("TEMP_" ++ table)) ∈ P ∧
      (∀ ev ∈ P, isDropEv ev = false ∧ isCommitEv ev = false) := by
  have hfmt := format_data_ok df desc isNull ("TEMP_" ++ table) hdesc
  obtain ⟨a, l, hal⟩ : ∃ a l, (df.rows.map fun row => desc.map fun c =>
      normalize isNull (colVal (df.cols.map String.toUpper) row c)) = a :: l := by
    obtain ⟨r, rs, hrr⟩ := List.exists_cons_of_ne_nil hrows
    exact ⟨_, _, by rw [hrr, List.map_cons]⟩
  have hlp := append_loop_ok manyFail
    (Stmt.insertValues ("TEMP_" ++ table) (placeholder_values a.length))
    ("TEMP_" ++ table) (a :: l) 0 (fun d _ => hmany _ d)
  unfold update_join_run format_data_run
  simp only [hexec, hfmt, hal, append_data_run_cons_false, hlp.1]
  refine ⟨trivial, _, _, rfl, ?_, ?_⟩
  · simp [format_data_effect]
  · intro ev hev
    have hq : ev ∈ (append_loop manyFail
        (Stmt.insertValues ("TEMP_" ++ table) (placeholder_values a.length))
        ("TEMP_" ++ table) (a :: l) 0).1 →
        isDropEv ev = false ∧ isCommitEv ev = false :=
      fun h => append_loop_quiet manyFail _ _ _ _ ev h
    simp only [List.mem_append, List.mem_cons, List.not_mem_nil, or_false] at hev
    casesm* _ ∨ _
    all_goals first
      | exact hq hev
      | (rw [hev]; exact ⟨rfl, rfl⟩)
      | (rename_i h; exact hq h)
      | (rename_i h; rw [h]; exact ⟨rfl, rfl⟩)

theorem update_join_run_trace_cases {V : Type} (execFail : Stmt → Option String)
    (manyFail : Stmt → List (List (Option V)) → Option String)
    (df : DataFrame V) (desc : List String) (isNull : V → Bool)
    (table : String) (join_keys : List String) (commit : Bool) :
    (∃ P, (update_join_run execFail manyFail df desc isNull table join_keys commit).1
        = P ++ [Event.exec (Stmt.dropTable ("TEMP_" ++ table))]
      ∧ ∀ ev ∈ P, isDropEv ev = false)
    ∨ (∀ ev ∈ (update_join_run execFail manyFail df desc isNull table join_keys commit).1,
        isDropEv ev = false) := by
  have hsplit : ∀ (X : List (Event (Option V))) p d, X ++ [p, d] = (X ++ [p]) ++ [d] := by
    intro X p d
    simp
  unfold update_join_run
  rcases h1 : execFail (Stmt.createTempFrom ("TEMP_" ++ table) table) with _ | e1
  case some =>
    simp only [h1]
    right
    intro ev hev
    simp only [List.mem_append, List.mem_cons, List.not_mem_nil, or_false] at hev
    casesm* _ ∨ _
    all_goals first
      | (rw [hev]; rfl)
      | (rename_i h; rw [h]; rfl)
  simp only [h1]
  rcases h2 : execFail (Stmt.addPK ("TEMP_" ++ table) join_keys) with _ | e2
  case some =>
    simp only [h2]
    right
    intro ev hev
    simp only [List.mem_append, List.mem_cons, List.not_mem_nil, or_false] at hev
    casesm* _ ∨ _
    all_goals first
      | (rw [hev]; rfl)
      | (rename_i h; rw [h]; rfl)
  simp only [h2]
  unfold format_data_run
  rcases h3 : execFail (Stmt.selectRownum ("TEMP_" ++ table)) with _ | e3
  case some =>
    simp only [h3]
    right
    intro ev hev
    simp only [List.mem_append, List.mem_cons, List.not_mem_nil, or_false] at hev
    casesm* _ ∨ _
    all_goals first
      | (rw [hev]; rfl)
      | (rename_i h; rw [h]; rfl)
  simp only [h3]
  rcases h4 : format_data df desc isNull ("TEMP_" ++ table) with msg | recs
  case error =>
    simp only [h4]
    right
    intro ev hev
    simp only [List.mem_append, List.mem_cons, List.not_mem_nil, or_false] at hev
    casesm* _ ∨ _
    all_goals first
      | (rw [hev]; rfl)
      | (rename_i h; rw [h]; rfl)
  simp only [h4]
  have haq := append_data_run_quiet execFail manyFail recs ("TEMP_" ++ table) false
  generalize hg : append_data_run execFail manyFail recs ("TEMP_" ++ table) false = ar at haq ⊢
  obtain ⟨evs2, oc⟩ := ar
  cases oc
  case exited c =>
    right
    intro ev hev
    simp only [List.mem_append, List.mem_cons, List.not_mem_nil, or_false] at hev
    casesm* _ ∨ _
    all_goals first
      | exact (haq ev hev).1
      | (rw [hev]; rfl)
      | (rename_i h; exact (haq ev h).1)
      | (rename_i h; rw [h]; rfl)
  case raised e =>
    right
    intro ev hev
    simp only [List.mem_append, List.mem_cons, List.not_mem_nil, or_false] at hev
    casesm* _ ∨ _
    all_goals first
      | exact (haq ev hev).1
      | (rw [hev]; rfl)
      | (rename_i h; exact (haq ev h).1)
      | (rename_i h; rw [h]; rfl)
  case ok =>
  rcases h5 : execFail (Stmt.updateJoin
      (old_cols_of (format_data_effect df).cols table
        ++ new_cols_of (format_data_effect df).cols ("TEMP_" ++ table))
      (join_cols_of join_keys table ("TEMP_" ++ table))
      (set_cols_of (format_data_effect df).cols join_keys)
      table ("TEMP_" ++ table)) with _ | e5
  case some =>
    simp only [h5]
    right
    intro ev hev
    simp only [List.mem_append, List.mem_cons, List.not_mem_nil, or_false] at hev
    casesm* _ ∨ _
    all_goals first
      | exact (haq ev hev).1
      | (rw [hev]; rfl)
      | (rename_i h; exact (haq ev h).1)
      | (rename_i h; rw [h]; rfl)
  simp only [h5]
  rcases h6 : execFail (Stmt.deleteTemp ("TEMP_" ++ table) table
      (join_cols_of join_keys table ("TEMP_" ++ table))) with _ | e6
  case some =>
    simp only [h6]
    right
    intro ev hev
    simp only [List.mem_append, List.mem_cons, List.not_mem_nil, or_false] at hev
    casesm* _ ∨ _
    all_goals first
      | exact (haq ev hev).1
      | (rw [hev]; rfl)
      | (rename_i h; exact (haq ev h).1)
      | (rename_i h; rw [h]; rfl)
  simp only [h6]
  rcases h7 : execFail (Stmt.insertFromTemp table ("TEMP_" ++ table)) with _ | e7
  case some =>
    simp only [h7]
    right
    intro ev hev
    simp only [List.mem_append, List.mem_cons, List.not_mem_nil, or_false] at hev
    casesm* _ ∨ _
    all_goals first
      | exact (haq ev hev).1
      | (rw [hev]; rfl)
      | (rename_i h; exact (haq ev h).1)
      | (rename_i h; rw [h]; rfl)
  simp only [h7]
  rcases h8 : execFail (Stmt.dropTable ("TEMP_" ++ table)) with _ | e8 <;>
    [skip; skip] <;>
    simp only [h8] <;>
    refine Or.inl ⟨_, hsplit _ _ _, ?_⟩ <;>
    (intro ev hev;
     simp only [commit_transactions_events, List.mem_append, List.mem_cons,
       List.not_mem_nil, or_false] at hev;
     casesm* _ ∨ _) <;>
    first
      | exact (haq ev hev).1
      | (rw [hev]; cases commit <;> rfl)
      | (rename_i h; exact (haq ev h).1)
      | (rename_i h; rw [h]; cases commit <;> rfl)

/-- C4: In every merge invocation (`update_join`), the commit-or-rollback
decision driven by the caller's commit flag is executed strictly before the
`DROP TABLE` of the scratch table: in every trace the merge can issue, no
commit/rollback call occurs at or after a drop (`no_commit_after_drop`),
and in a failure-free run the drop is the very last call of the trace while
the flag-selected commit/rollback call does occur (hence before it). -/
theorem merge_commit_before_drop {V : Type} (execFail : Stmt → Option String)
    (manyFail : Stmt → List (List (Option V)) → Option String)
    (df : DataFrame V) (desc : List String) (isNull : V → Bool)
    (table : String) (join_keys : List String) (commit : Bool) :
    no_commit_after_drop
      (update_join_run execFail manyFail df desc isNull table join_keys commit).1 = true ∧
    ((∀ s, execFail s = none) → (∀ s d, manyFail s d = none) →
      (∀ c ∈ desc, c ∈ df.cols.map String.toUpper) → df.rows ≠ [] →
      (update_join_run execFail manyFail df desc isNull table join_keys commit).1.getLast?
          = some (Event.exec (Stmt.dropTable ("TEMP_" ++ table))) ∧
      (if commit then Event.commitTx else Event.rollbackTx)
          ∈ (update_join_run execFail manyFail df desc isNull table join_keys commit).1) := by
  constructor
  · rcases update_join_run_trace_cases execFail manyFail df desc isNull table join_keys
        commit with ⟨P, hP, hquiet⟩ | hq
    · rw [hP]
      exact nca_of_append_drop P _ hquiet
    · exact nca_of_no_drop _ hq
  · intro hexec hmany hdesc hrows
    obtain ⟨-, P, p, htr, -, -⟩ := update_join_run_success execFail manyFail df desc
      isNull table join_keys commit hexec hmany hdesc hrows
    rw [htr]
    constructor
    · rw [List.getLast?_append]
      rfl
    · refine List.mem_append.mpr (Or.inl (List.mem_append.mpr (Or.inr ?_)))
      cases commit <;> simp [commit_transactions_events]

/-- Witness for C4 at a concrete failure-free merge with `commit = true`:
the trace never commits after the drop, ends with the drop, and contains
the commit call. -/
theorem merge_commit_before_drop_witness :
    no_commit_after_drop (update_join_run (fun _ => none) (fun _ _ => none)
        (DataFrame.mk ["ID"] [[(1 : Nat)]]) ["ID"] (fun _ => false) "T" ["ID"] true).1
        = true ∧
    (update_join_run (fun _ => none) (fun _ _ => none)
        (DataFrame.mk ["ID"] [[(1 : Nat)]]) ["ID"] (fun _ => false) "T" ["ID"]
        true).1.getLast? = some (Event.exec (Stmt.dropTable ("TEMP_" ++ "T"))) ∧
    (if true then Event.commitTx else Event.rollbackTx)
        ∈ (update_join_run (fun _ => none) (fun _ _ => none)
            (DataFrame.mk ["ID"] [[(1 : Nat)]]) ["ID"] (fun _ => false) "T" ["ID"]
            true).1 :=
  ⟨(merge_commit_before_drop (fun _ => none) (fun _ _ => none)
      (DataFrame.mk ["ID"] [[(1 : Nat)]]) ["ID"] (fun _ => false) "T" ["ID"] true).1,
   (merge_commit_before_drop (fun _ => none) (fun _ _ => none)
      (DataFrame.mk ["ID"] [[(1 : Nat)]]) ["ID"] (fun _ => false) "T" ["ID"] true).2
    (fun _ => rfl) (fun _ _ => rfl)
    (by simp only [List.map_cons, List.map_nil, String.toUpper, String.map_eq]; decide)
    (by decide)⟩

/-- C10: Every call to `format_data` mutates the caller's dataframe in
place (line 163): after the call the caller's dataframe
(`format_data_effect df`) has its column names replaced by their upper-cased
forms while its row values are unchanged, and the merge's later SQL
generation observes these mutated names: in a completed merge the executed
`UPDATE` statement is built (select, join and set clauses) from the
upper-cased column names. -/
theorem format_data_mutates_caller_df {V : Type} (execFail : Stmt → Option String)
    (manyFail : Stmt → List (List (Option V)) → Option String)
    (df : DataFrame V) (desc : List String) (isNull : V → Bool)
    (table : String) (join_keys : List String) (commit : Bool) :
    (format_data_effect df).cols = df.cols.map String.toUpper ∧
    (format_data_effect df).rows = df.rows ∧
    ((∀ s, execFail s = none) → (∀ s d, manyFail s d = none) →
      (∀ c ∈ desc, c ∈ df.cols.map String.toUpper) → df.rows ≠ [] →
      Event.exec (Stmt.updateJoin
          (old_cols_of (df.cols.map String.toUpper) table
            ++ new_cols_of (df.cols.map String.toUpper) ("TEMP_" ++ table))
          (join_cols_of join_keys table ("TEMP_" ++ table))
          (set_cols_of (df.cols.map String.toUpper) join_keys)
          table ("TEMP_" ++ table))
        ∈ (update_join_run execFail manyFail df desc isNull table join_keys commit).1) := by
  refine ⟨rfl, rfl, ?_⟩
  intro hexec hmany hdesc hrows
  obtain ⟨-, P, p, htr, hmem, -⟩ := update_join_run_success execFail manyFail df desc
    isNull table join_keys commit hexec hmany hdesc hrows
  rw [htr]
  exact List.mem_append.mpr (Or.inl (List.mem_append.mpr (Or.inl hmem)))

/-- Witness for C10 at a concrete merge: the mutated dataframe and the
`UPDATE` statement built from the upper-cased names. -/
theorem format_data_mutates_caller_df_witness :
    (format_data_effect (DataFrame.mk ["id"] [[(1 : Nat)]])).cols
        = (DataFrame.mk ["id"] [[(1 : Nat)]]).cols.map String.toUpper ∧
    (format_data_effect (DataFrame.mk ["id"] [[(1 : Nat)]])).rows
        = (DataFrame.mk ["id"] [[(1 : Nat)]]).rows ∧
    Event.exec (Stmt.updateJoin
        (old_cols_of ((DataFrame.mk ["id"] [[(1 : Nat)]]).cols.map String.toUpper) "T"
          ++ new_cols_of ((DataFrame.mk ["id"] [[(1 : Nat)]]).cols.map String.toUpper)
              ("TEMP_" ++ "T"))
        (join_cols_of ["ID"] "T" ("TEMP_" ++ "T"))
        (set_cols_of ((DataFrame.mk ["id"] [[(1 : Nat)]]).cols.map String.toUpper) ["ID"])
        "T" ("TEMP_" ++ "T"))
      ∈ (update_join_run (fun _ => none) (fun _ _ => none)
          (DataFrame.mk ["id"] [[(1 : Nat)]]) ["ID"] (fun _ => false) "T" ["ID"]
          true).1 := by
  refine ⟨(format_data_mutates_caller_df (fun _ => none) (fun _ _ => none)
      (DataFrame.mk ["id"] [[(1 : Nat)]]) ["ID"] (fun _ => false) "T" ["ID"] true).1,
    (format_data_mutates_caller_df (fun _ => none) (fun _ _ => none)
      (DataFrame.mk ["id"] [[(1 : Nat)]]) ["ID"] (fun _ => false) "T" ["ID"] true).2.1,
    (format_data_mutates_caller_df (fun _ => none) (fun _ _ => none)
      (DataFrame.mk ["id"] [[(1 : Nat)]]) ["ID"] (fun _ => false) "T" ["ID"] true).2.2
    (fun _ => rfl) (fun _ _ => rfl)
    (by simp only [List.map_cons, List.map_nil, String.toUpper, String.map_eq]; decide)
    (by decide)⟩

/-!
Relational-layer lemmas.
-/

theorem any_congr_on {β : Type} {l : List β} {p q : β → Bool}
    (h : ∀ b ∈ l, p b = q b) : l.any p = l.any q := by
  induction l with
  | nil => rfl
  | cons b t ih =>
    simp only [List.any_cons]
    rw [h b (List.mem_cons_self b t), ih fun x hx => h x (List.mem_cons_of_mem b hx)]

theorem colVal_cons {V : Type} (c0 : String) (cols : List String) (v : V)
    (vs : List V) (c : String) :
    colVal (c0 :: cols) (v :: vs) c = if c0 = c then some v else colVal cols vs c := by
  unfold colVal
  rw [List.indexOf?_cons]
  by_cases h : c0 = c
  · simp [h]
  · simp only [h, beq_iff_eq, if_neg, if_false]
    cases List.indexOf? c cols <;> simp

theorem colVal_overwrite {V : Type} (cols setCols : List String) (t s : List V)
    (c : String) (hc : setCols.contains c = false)
    (ht : t.length = cols.length) (hs : s.length = cols.length) :
    colVal cols (overwrite cols setCols t s) c = colVal cols t c := by
  induction cols generalizing t s with
  | nil =>
    simp [colVal]
  | cons c0 cols ih =>
    cases t with
    | nil => simp at ht
    | cons t0 ts =>
      cases s with
      | nil => simp at hs
      | cons s0 ss =>
        have hov : overwrite (c0 :: cols) setCols (t0 :: ts) (s0 :: ss)
            = (if setCols.contains c0 then s0 else t0) :: overwrite cols setCols ts ss := rfl
        rw [hov, colVal_cons, colVal_cons]
        by_cases h : c0 = c
        · subst h
          rw [if_pos rfl, if_pos rfl, hc]
          simp
        · rw [if_neg h, if_neg h]
          exact ih ts ss (by simpa using ht) (by simpa using hs)

theorem colVal_overwrite_set {V : Type} (cols setCols : List String) (t s : List V)
    (c : String) (hc : setCols.contains c = true)
    (ht : t.length = cols.length) (hs : s.length = cols.length) :
    colVal cols (overwrite cols setCols t s) c = colVal cols s c := by
  induction cols generalizing t s with
  | nil =>
    simp [colVal]
  | cons c0 cols ih =>
    cases t with
    | nil => simp at ht
    | cons t0 ts =>
      cases s with
      | nil => simp at hs
      | cons s0 ss =>
        have hov : overwrite (c0 :: cols) setCols (t0 :: ts) (s0 :: ss)
            = (if setCols.contains c0 then s0 else t0) :: overwrite cols setCols ts ss := rfl
        rw [hov, colVal_cons, colVal_cons]
        by_cases h : c0 = c
        · subst h
          rw [if_pos rfl, if_pos rfl, hc]
          simp
        · rw [if_neg h, if_neg h]
          exact ih ts ss (by simpa using ht) (by simpa using hs)

theorem keyOf_overwrite {V : Type} (cols setCols keys : List String) (t s : List V)
    (hdisj : ∀ k ∈ keys, setCols.contains k = false)
    (ht : t.length = cols.length) (hs : s.length = cols.length) :
    keyOf cols keys (overwrite cols setCols t s) = keyOf cols keys t := by
  unfold keyOf
  exact List.map_congr_left fun k hk => colVal_overwrite _ _ _ _ _ (hdisj k hk) ht hs

theorem mem_upd_cols {dfCols join_keys : List String} {c : String} :
    c ∈ upd_cols dfCols join_keys ↔ c ∈ dfCols ∧ c ∉ join_keys := by
  unfold upd_cols
  rw [List.mem_filter]
  constructor
  · rintro ⟨h1, h2⟩
    refine ⟨h1, fun hm => ?_⟩
    rw [contains_eq_true_iff.mpr hm] at h2
    simp at h2
  · rintro ⟨h1, h2⟩
    refine ⟨h1, ?_⟩
    cases hb : join_keys.contains c
    · rfl
    · exact absurd (contains_eq_true_iff.mp hb) h2

theorem upd_cols_contains_key {dfCols join_keys : List String} {k : String}
    (hk : k ∈ join_keys) : (upd_cols dfCols join_keys).contains k = false := by
  cases hb : (upd_cols dfCols join_keys).contains k
  · rfl
  · exact absurd hk (mem_upd_cols.mp (contains_eq_true_iff.mp hb)).2

theorem upd_cols_contains_nonkey {dfCols join_keys : List String} {c : String}
    (hc : c ∈ dfCols) (hnk : c ∉ join_keys) :
    (upd_cols dfCols join_keys).contains c = true :=
  contains_eq_true_iff.mpr (mem_upd_cols.mpr ⟨hc, hnk⟩)

theorem overwrite_colVal_spec {V : Type} (cols dfCols keys : List String)
    (t s : List V) (c : String) (hsub : ∀ x ∈ cols, x ∈ dfCols)
    (ht : t.length = cols.length) (hs : s.length = cols.length) (hc : c ∈ cols) :
    (c ∈ keys →
      colVal cols (overwrite cols (upd_cols dfCols keys) t s) c = colVal cols t c) ∧
    (c ∉ keys →
      colVal cols (overwrite cols (upd_cols dfCols keys) t s) c = colVal cols s c) :=
  ⟨fun hk => colVal_overwrite _ _ _ _ _ (upd_cols_contains_key hk) ht hs,
   fun hnk => colVal_overwrite_set _ _ _ _ _
     (upd_cols_contains_nonkey (hsub c hc) hnk) ht hs⟩

theorem update_by_join_getElem {V : Type} [DecidableEq V]
    (cols keys setCols : List String) (target temp : List (List V)) (i : Nat)
    (t : List V) (ht : target[i]? = some t) :
    (update_by_join cols keys setCols target temp)[i]?
      = some (match temp.find? (fun s => keysMatch cols keys t s) with
              | some s => overwrite cols setCols t s
              | none => t) := by
  unfold update_by_join
  rw [List.getElem?_map, ht]
  rfl

theorem update_by_join_any_keysMatch {V : Type} [DecidableEq V]
    (cols dfCols keys : List String) (target temp : List (List V)) (s : List V)
    (hT : ∀ r ∈ target, r.length = cols.length)
    (hS : ∀ r ∈ temp, r.length = cols.length) :
    ((update_by_join cols keys (upd_cols dfCols keys) target temp).any
        fun t => keysMatch cols keys t s)
      = (target.any fun t => keysMatch cols keys t s) := by
  unfold update_by_join
  rw [List.any_map]
  apply any_congr_on
  intro t htm
  simp only [Function.comp]
  rcases hf : temp.find? (fun s2 => keysMatch cols keys t s2) with _ | s2
  · rfl
  · unfold keysMatch
    rw [keyOf_overwrite cols (upd_cols dfCols keys) keys t s2
      (fun k hk => upd_cols_contains_key hk) (hT t htm)
      (hS s2 (List.mem_of_find?_eq_some hf))]

theorem delete_matched_after_update {V : Type} [DecidableEq V]
    (cols dfCols keys : List String) (target staged : List (List V))
    (hT : ∀ r ∈ target, r.length = cols.length)
    (hS : ∀ r ∈ staged, r.length = cols.length) :
    delete_matched cols keys
        (update_by_join cols keys (upd_cols dfCols keys) target staged) staged
      = staged.filter (fun s => !(target.any fun t => keysMatch cols keys t s)) := by
  unfold delete_matched
  exact List.filter_congr fun s hsm => by
    rw [update_by_join_any_keysMatch cols dfCols keys target staged s hT hS]

/-- C1: For every merge that completes without a statement failure
(modelled by the structural success conditions: the target's live columns
all occur among the staged dataframe's columns, and all rows are aligned
with the schema), the relational meaning of the merge's statement sequence
(`merge_tables`, the composition of the `UPDATE`-join, the scratch-table
purge and the final `INSERT ... SELECT`) satisfies: every target row whose
join-key values occur in the staged data is overwritten in place (same
position; key columns keep the target's values, non-key columns take the
matching staged row's values), every staged row with no join-key match in
the target is appended after the original rows, and the final row count
equals the row count before the merge plus the number of staged rows whose
key matched nothing. -/
theorem merge_update_append_rowcount {V : Type} [DecidableEq V]
    (cols dfCols join_keys : List String) (target staged : List (List V))
    (hsub : ∀ c ∈ cols, c ∈ dfCols)
    (hT : ∀ r ∈ target, r.length = cols.length)
    (hS : ∀ r ∈ staged, r.length = cols.length) :
    (merge_tables cols join_keys (upd_cols dfCols join_keys) target staged).length
        = target.length + (staged.filter fun s =>
            !(target.any fun t => keysMatch cols join_keys t s)).length
    ∧ (∀ (i : Nat) (t s : List V), target[i]? = some t →
        staged.find? (fun s2 => keysMatch cols join_keys t s2) = some s →
        ∃ u, (merge_tables cols join_keys (upd_cols dfCols join_keys) target staged)[i]?
            = some u
          ∧ (∀ c ∈ cols, c ∈ join_keys → colVal cols u c = colVal cols t c)
          ∧ (∀ c ∈ cols, c ∉ join_keys → colVal cols u c = colVal cols s c))
    ∧ (∀ (i : Nat) (t : List V), target[i]? = some t →
        (∀ s ∈ staged, keysMatch cols join_keys t s = false) →
        (merge_tables cols join_keys (upd_cols dfCols join_keys) target staged)[i]?
          = some t)
    ∧ (merge_tables cols join_keys (upd_cols dfCols join_keys) target staged).drop
          target.length
        = staged.filter (fun s => !(target.any fun t => keysMatch cols join_keys t s)) := by
  have hlen : (update_by_join cols join_keys (upd_cols dfCols join_keys) target
      staged).length = target.length := List.length_map _ _
  have hrem := delete_matched_after_update cols dfCols join_keys target staged hT hS
  refine ⟨?_, ?_, ?_, ?_⟩
  · simp only [merge_tables, insert_from_temp]
    rw [List.length_append, hlen, hrem]
  · intro i t s ht hf
    have hup := update_by_join_getElem cols join_keys (upd_cols dfCols join_keys)
      target staged i t ht
    rw [hf] at hup
    have hi : i < target.length := by
      by_contra hge
      rw [List.getElem?_eq_none (Nat.le_of_not_lt hge)] at ht
      exact Option.noConfusion ht
    refine ⟨overwrite cols (upd_cols dfCols join_keys) t s, ?_, ?_, ?_⟩
    · simp only [merge_tables, insert_from_temp]
      rw [List.getElem?_append, if_pos (by rw [hlen]; exact hi)]
      exact hup
    · intro c hc hk
      exact (overwrite_colVal_spec cols dfCols join_keys t s c hsub
        (hT t (List.getElem?_mem ht)) (hS s (List.mem_of_find?_eq_some hf)) hc).1 hk
    · intro c hc hnk
      exact (overwrite_colVal_spec cols dfCols join_keys t s c hsub
        (hT t (List.getElem?_mem ht)) (hS s (List.mem_of_find?_eq_some hf)) hc).2 hnk
  · intro i t ht hno
    have hup := update_by_join_getElem cols join_keys (upd_cols dfCols join_keys)
      target staged i t ht
    rw [List.find?_eq_none.mpr (fun s hs => by rw [hno s hs]; exact Bool.false_ne_true)]
      at hup
    have hi : i < target.length := by
      by_contra hge
      rw [List.getElem?_eq_none (Nat.le_of_not_lt hge)] at ht
      exact Option.noConfusion ht
    simp only [merge_tables, insert_from_temp]
    rw [List.getElem?_append, if_pos (by rw [hlen]; exact hi)]
    exact hup
  · simp only [merge_tables, insert_from_temp]
    rw [← hlen, List.drop_left, hrem]

/-- Witness for C1 at the spec's own example: target `(ID, NAME, VALUE)`
with three rows, staged data with two matching IDs (different `VALUE`) and
one new ID; the merged result has the two matching rows updated in place,
the new row appended, and final row count 4. -/
theorem merge_update_append_rowcount_witness :
    (merge_tables ["ID", "NAME", "VALUE"] ["ID"] (upd_cols ["ID", "NAME", "VALUE"] ["ID"])
        [[1, 10, 100], [2, 20, 200], [3, 30, 300]]
        [[1, 10, 101], [2, 20, 202], [4, 40, 400]]).length
      = ([[(1 : Nat), 10, 100], [2, 20, 200], [3, 30, 300]] : List (List Nat)).length
        + (([[(1 : Nat), 10, 101], [2, 20, 202], [4, 40, 400]] : List (List Nat)).filter
            fun s => !(([[(1 : Nat), 10, 100], [2, 20, 200], [3, 30, 300]] :
                List (List Nat)).any
              fun t => keysMatch ["ID", "NAME", "VALUE"] ["ID"] t s)).length
    ∧ (∀ (i : Nat) (t s : List Nat),
        ([[(1 : Nat), 10, 100], [2, 20, 200], [3, 30, 300]] : List (List Nat))[i]?
            = some t →
        ([[(1 : Nat), 10, 101], [2, 20, 202], [4, 40, 400]] : List (List Nat)).find?
            (fun s2 => keysMatch ["ID", "NAME", "VALUE"] ["ID"] t s2) = some s →
        ∃ u, (merge_tables ["ID", "NAME", "VALUE"] ["ID"]
              (upd_cols ["ID", "NAME", "VALUE"] ["ID"])
              [[1, 10, 100], [2, 20, 200], [3, 30, 300]]
              [[1, 10, 101], [2, 20, 202], [4, 40, 400]])[i]? = some u
          ∧ (∀ c ∈ ["ID", "NAME", "VALUE"], c ∈ ["ID"] →
              colVal ["ID", "NAME", "VALUE"] u c = colVal ["ID", "NAME", "VALUE"] t c)
          ∧ (∀ c ∈ ["ID", "NAME", "VALUE"], c ∉ ["ID"] →
              colVal ["ID", "NAME", "VALUE"] u c = colVal ["ID", "NAME", "VALUE"] s c))
    ∧ (∀ (i : Nat) (t : List Nat),
        ([[(1 : Nat), 10, 100], [2, 20, 200], [3, 30, 300]] : List (List Nat))[i]?
            = some t →
        (∀ s ∈ ([[(1 : Nat), 10, 101], [2, 20, 202], [4, 40, 400]] : List (List Nat)),
            keysMatch ["ID", "NAME", "VALUE"] ["ID"] t s = false) →
        (merge_tables ["ID", "NAME", "VALUE"] ["ID"]
            (upd_cols ["ID", "NAME", "VALUE"] ["ID"])
            [[1, 10, 100], [2, 20, 200], [3, 30, 300]]
            [[1, 10, 101], [2, 20, 202], [4, 40, 400]])[i]? = some t)
    ∧ (merge_tables ["ID", "NAME", "VALUE"] ["ID"] (upd_cols ["ID", "NAME", "VALUE"] ["ID"])
          [[1, 10, 100], [2, 20, 200], [3, 30, 300]]
          [[1, 10, 101], [2, 20, 202], [4, 40, 400]]).drop
          ([[(1 : Nat), 10, 100], [2, 20, 200], [3, 30, 300]] : List (List Nat)).length
        = ([[(1 : Nat), 10, 101], [2, 20, 202], [4, 40, 400]] : List (List Nat)).filter
            (fun s => !(([[(1 : Nat), 10, 100], [2, 20, 200], [3, 30, 300]] :
                List (List Nat)).any
              fun t => keysMatch ["ID", "NAME", "VALUE"] ["ID"] t s)) :=
  merge_update_append_rowcount ["ID", "NAME", "VALUE"] ["ID", "NAME", "VALUE"] ["ID"]
    [[1, 10, 100], [2, 20, 200], [3, 30, 300]]
    [[1, 10, 101], [2, 20, 202], [4, 40, 400]]
    (by decide) (by decide) (by decide)

/-- C5: In the merge's update-by-join step, the generated `UPDATE`
statement's `SET` clause (lines 110-124) contains the assignment
`joined.OLD_c = joined.NEW_c` for every target column `c` not among the
caller-specified join keys, and assigns only non-key columns; its
relational meaning (`update_by_join`, the inner join on the join keys)
overwrites exactly the target rows whose join-key values exist in both
tables, setting every non-key column to the scratch table's value and
leaving rows without a join partner unchanged. -/
theorem update_join_statement_spec {V : Type} [DecidableEq V]
    (cols dfCols join_keys : List String) (target staged : List (List V))
    (hsub : ∀ c ∈ cols, c ∈ dfCols)
    (hT : ∀ r ∈ target, r.length = cols.length)
    (hS : ∀ r ∈ staged, r.length = cols.length) :
    (∀ c ∈ cols, c ∉ join_keys →
      ("joined.OLD_" ++ c ++ " = joined.NEW_" ++ c) ∈ set_cols_of dfCols join_keys)
    ∧ (∀ c ∈ upd_cols dfCols join_keys, c ∉ join_keys)
    ∧ (∀ (i : Nat) (t : List V), target[i]? = some t →
        ((∀ s ∈ staged, keysMatch cols join_keys t s = false) →
          (update_by_join cols join_keys (upd_cols dfCols join_keys) target staged)[i]?
            = some t)
        ∧ (∀ s : List V,
            staged.find? (fun s2 => keysMatch cols join_keys t s2) = some s →
            ∃ u, (update_by_join cols join_keys (upd_cols dfCols join_keys) target
                staged)[i]? = some u
              ∧ (∀ c ∈ cols, c ∈ join_keys → colVal cols u c = colVal cols t c)
              ∧ (∀ c ∈ cols, c ∉ join_keys → colVal cols u c = colVal cols s c))) := by
  refine ⟨?_, ?_, ?_⟩
  · intro c hc hnk
    unfold set_cols_of
    exact List.mem_map.mpr ⟨c, mem_upd_cols.mpr ⟨hsub c hc, hnk⟩, rfl⟩
  · intro c hc
    exact (mem_upd_cols.mp hc).2
  · intro i t ht
    have hup := update_by_join_getElem cols join_keys (upd_cols dfCols join_keys)
      target staged i t ht
    constructor
    · intro hno
      rw [List.find?_eq_none.mpr (fun s hs => by rw [hno s hs]; exact Bool.false_ne_true)]
        at hup
      exact hup
    · intro s hf
      rw [hf] at hup
      refine ⟨overwrite cols (upd_cols dfCols join_keys) t s, hup, ?_, ?_⟩
      · intro c hc hk
        exact (overwrite_colVal_spec cols dfCols join_keys t s c hsub
          (hT t (List.getElem?_mem ht)) (hS s (List.mem_of_find?_eq_some hf)) hc).1 hk
      · intro c hc hnk
        exact (overwrite_colVal_spec cols dfCols join_keys t s c hsub
          (hT t (List.getElem?_mem ht)) (hS s (List.mem_of_find?_eq_some hf)) hc).2 hnk

/-- Witness for C5 at a concrete instance: one target row joined with one
staged row on key `K`; the `SET` clause covers the single non-key column. -/
theorem update_join_statement_spec_witness :
    (∀ c ∈ ["K", "A"], c ∉ ["K"] →
      ("joined.OLD_" ++ c ++ " = joined.NEW_" ++ c) ∈ set_cols_of ["K", "A"] ["K"])
    ∧ (∀ c ∈ upd_cols ["K", "A"] ["K"], c ∉ ["K"])
    ∧ (∀ (i : Nat) (t : List Nat),
        ([[(1 : Nat), 5]] : List (List Nat))[i]? = some t →
        ((∀ s ∈ ([[(1 : Nat), 7]] : List (List Nat)),
            keysMatch ["K", "A"] ["K"] t s = false) →
          (update_by_join ["K", "A"] ["K"] (upd_cols ["K", "A"] ["K"])
              [[1, 5]] [[1, 7]])[i]? = some t)
        ∧ (∀ s : List Nat,
            ([[(1 : Nat), 7]] : List (List Nat)).find?
                (fun s2 => keysMatch ["K", "A"] ["K"] t s2) = some s →
            ∃ u, (update_by_join ["K", "A"] ["K"] (upd_cols ["K", "A"] ["K"])
                [[1, 5]] [[1, 7]])[i]? = some u
              ∧ (∀ c ∈ ["K", "A"], c ∈ ["K"] →
                  colVal ["K", "A"] u c = colVal ["K", "A"] t c)
              ∧ (∀ c ∈ ["K", "A"], c ∉ ["K"] →
                  colVal ["K", "A"] u c = colVal ["K", "A"] s c))) :=
  update_join_statement_spec ["K", "A"] ["K", "A"] ["K"] [[1, 5]] [[1, 7]]
    (by decide) (by decide) (by decide)

end OracleCode
